import Mathlib

/-!
Verification of the SaveRestrict batch-transfer orchestrator.

This file gives a shallow embedding of the relevant parts of the repository:

* `utils/func.py` : the link resolver `E`, the `thumbnail` lookup;
* `plugins/batch.py` : `sanitize`, the active-job registry
  (`is_user_active`, `add_active_batch`, `request_batch_cancel`,
  `should_cancel`), the `/batch` / `/single` entry point `process_cmd`,
  the count step and the batch loop of `text_handler`, the private branch
  of `get_msg`, and the upload-failure cleanup of `process_msg`;
* `plugins/settings.py` : the `rename_file` name computation.

Python strings are modelled as Lean `String` / `List Char`; the filesystem is
an explicit list of existing paths; Telegram network calls become oracle
functions passed as parameters; exceptions become `Except` values.
-/

set_option maxRecDepth 10000

/-! ## Character and string primitives (Python semantics) -/

/-- ASCII decimal digit, as tested by the regex class `\d` and `str.isdigit`. -/
def digitChar (c : Char) : Bool := '0' ≤ c && c ≤ '9'

/-- ASCII letter, as tested by `str.isalpha` (ASCII fragment). -/
def isAlphaChar (c : Char) : Bool := ('a' ≤ c && c ≤ 'z') || ('A' ≤ c && c ≤ 'Z')

/-- ASCII lower-casing, as in `str.lower`. -/
def toLowerChar (c : Char) : Char :=
  if 'A' ≤ c && c ≤ 'Z' then Char.ofNat (c.toNat + 32) else c

/-- Word character of the regex class `\w`: letter, digit or underscore. -/
def isWordChar (c : Char) : Bool := isAlphaChar c || digitChar c || c == '_'

/-- Python whitespace, the regex class `\s` (ASCII fragment). -/
def pyWS (c : Char) : Bool :=
  c == ' ' || c == '\t' || c == '\n' || c == '\r' || c == Char.ofNat 11 || c == Char.ofNat 12

/-- `l` starts with `pat`. -/
def listStartsWith : List Char → List Char → Bool
  | _, [] => true
  | [], _ :: _ => false
  | c :: cs, p :: ps => c == p && listStartsWith cs ps

/-- `pat` occurs as a contiguous substring of `l`. -/
def containsStrL (l pat : List Char) : Bool :=
  listStartsWith l pat ||
    match l with
    | [] => false
    | _ :: cs => containsStrL cs pat

/-- Substring test on `String`s. -/
def containsStr (s pat : String) : Bool := containsStrL s.toList pat.toList

/-- Suffix test on `String`s. -/
def endsWithStr (s pat : String) : Bool :=
  listStartsWith s.toList.reverse pat.toList.reverse

/-- Value of a digit string, as produced by Python `int` on a digit-only string. -/
def digitsToNat (l : List Char) : Nat :=
  l.foldl (fun a c => a * 10 + (c.toNat - '0'.toNat)) 0

/-- `str.isdigit`: nonempty and all characters are digits. -/
def pyIsDigit (s : String) : Bool := !s.toList.isEmpty && s.toList.all digitChar

/-- `int(s)` for a string already known to satisfy `isdigit`. -/
def pyToNat (s : String) : Nat := digitsToNat s.toList

/-! ## Link resolver `E`  (utils/func.py lines 462-471)

```python
def E(L):
    private_match = re.match(r'https://t\.me/c/(\d+)/(?:\d+/)?(\d+)', L)
    public_match = re.match(r'https://t\.me/([^/]+)/(?:\d+/)?(\d+)', L)
    if private_match:
        return f'-100{private_match.group(1)}', int(private_match.group(2)), 'private'
    elif public_match:
        return public_match.group(1), int(public_match.group(2)), 'public'
    return None, None, None
```

The two regexes are embedded as deterministic matchers.  The regex engine's
greedy matching with backtracking collapses to the following case analysis:
for the tail `(?:\d+/)?(\d+)` on input `r`, the match succeeds iff `r` starts
with a digit; the optional group `(?:\d+/)` participates iff the maximal digit
run of `r` is followed by `/` and another digit (a shorter split of the digit
run always puts a digit, not `/`, after the optional group, and so fails).
Similarly `(\d+)/` and `([^/]+)/` commit to the maximal run: any shorter run
is followed by a digit (resp. a non-`/` character), never by `/`. -/

/-- Prefix match of the regex tail `(?:\d+/)?(\d+)`, returning group 2. -/
def matchMsgTail (l : List Char) : Option (List Char) :=
  let d1 := l.takeWhile digitChar
  if d1.isEmpty then none
  else
    match l.drop d1.length with
    | '/' :: rest2 =>
      let d2 := rest2.takeWhile digitChar
      if d2.isEmpty then some d1 else some d2
    | _ => some d1

/-- Prefix match of `https://t\.me/c/(\d+)/(?:\d+/)?(\d+)`, returning groups 1 and 2. -/
def matchPrivateLink (l : List Char) : Option (List Char × List Char) :=
  if listStartsWith l ("https://t.me/c/".toList) then
    let r := l.drop 15
    let d1 := r.takeWhile digitChar
    if d1.isEmpty then none
    else
      match r.drop d1.length with
      | '/' :: r2 => (matchMsgTail r2).map (fun d2 => (d1, d2))
      | _ => none
  else none

/-- Prefix match of `https://t\.me/([^/]+)/(?:\d+/)?(\d+)`, returning groups 1 and 2. -/
def matchPublicLink (l : List Char) : Option (List Char × List Char) :=
  if listStartsWith l ("https://t.me/".toList) then
    let r := l.drop 13
    let u := r.takeWhile (fun c => c != '/')
    if u.isEmpty then none
    else
      match r.drop u.length with
      | '/' :: r2 => (matchMsgTail r2).map (fun d2 => (u, d2))
      | _ => none
  else none

/-- `E` : resolve a message link to (chat reference, message id, visibility).
`(none, none, none)` is the `Invalid-Link` signal. -/
def E (L : String) : Option String × Option Nat × Option String :=
  match matchPrivateLink L.toList with
  | some (d1, d2) => (some ("-100" ++ String.mk d1), some (digitsToNat d2), some "private")
  | none =>
    match matchPublicLink L.toList with
    | some (u, d2) => (some (String.mk u), some (digitsToNat d2), some "public")
    | none => (none, none, none)

/-! ## Filename sanitizer  (plugins/batch.py lines 56-58)

```python
def sanitize(filename):
    return re.sub(r'[<>:"/\\|?*\']', '_', filename).strip(" .")[:255]
```
-/

/-- The characters the spec calls sanitized-forbidden. -/
def claimForbidden : List Char := ['<', '>', ':', '"', '/', '\\', '|', '?', '*']

/-- The character class of `sanitize`'s regex: the forbidden characters plus
the apostrophe (codepoint 39). -/
def batchForbidden : List Char := claimForbidden ++ [Char.ofNat 39]

/-- One character of `re.sub(r'[<>:"/\\|?*\']', '_', .)`. -/
def subCharBatch (c : Char) : Char := if c ∈ batchForbidden then '_' else c

/-- Characters removed by `.strip(" .")`. -/
def pBadStrip (c : Char) : Bool := c == ' ' || c == '.'

/-- Python `str.strip(" .")`: drop the leading and the trailing run of
spaces and dots. -/
def stripSpaceDot (l : List Char) : List Char :=
  ((l.dropWhile pBadStrip).reverse.dropWhile pBadStrip).reverse

/-- `sanitize` from plugins/batch.py: substitute, strip, then truncate to 255. -/
def sanitize (filename : String) : String :=
  String.mk ((stripSpaceDot (filename.toList.map subCharBatch)).take 255)

/-- The output starts with a space or a dot. -/
def beginsBad (s : String) : Bool :=
  match s.toList.head? with
  | some c => pBadStrip c
  | none => false

/-- The output ends with a space or a dot. -/
def endsBad (s : String) : Bool :=
  match s.toList.getLast? with
  | some c => pBadStrip c
  | none => false

/-- A 256-character input whose character at index 254 is a space: the strip
happens before the truncation, so the truncated output ends in that space. -/
def c10bad : String := String.mk (List.replicate 254 'a' ++ [' ', 'b'])

/-! ## `rename_file`  (plugins/settings.py lines 277-331)

The database reads (`delete_words`, `rename_tag`, `replacement_words`) become
parameters, and the final `os.rename` effect is dropped: the function below
computes the new file name that `rename_file` returns.  `generate_random_name`
(7 random alphanumerics, used only when the processed name ends up empty)
becomes the `fallback` parameter. -/

/-- `VIDEO_EXTENSIONS` from plugins/settings.py. -/
def VIDEO_EXTENSIONS : List String :=
  ["mp4", "mkv", "avi", "mov", "wmv", "flv", "webm", "mpeg", "mpg", "3gp"]

/-- Index of the last `.` in the name, as in `str.rfind('.')`. -/
def rfindDot (l : List Char) : Option Nat :=
  match l.reverse.findIdx? (fun c => c == '.') with
  | some k => some (l.length - 1 - k)
  | none => none

/-- If `l` starts with `word` case-insensitively, return the rest of `l`. -/
def stripWordCI : List Char → List Char → Option (List Char)
  | [], rest => some rest
  | _ :: _, [] => none
  | w :: ws, c :: cs => if toLowerChar w == toLowerChar c then stripWordCI ws cs else none

/-- A `\b` word boundary holds between characters of word-character status
`l` and `r` iff the status changes. -/
def wordBoundary (l r : Bool) : Bool := l != r

/-- Scanner for `re.sub(r'\b' + re.escape(word) + r'\b', '', text, flags=IGNORECASE)`:
leftmost non-overlapping matches of `word` between `\b` boundaries are removed.
`prevW` is the word-character status of the previous character of the original
text (`false` at the start); fuel is the length of the remaining text. -/
def delWordAux (word : List Char) (lastW : Bool) : Nat → Bool → List Char → List Char
  | 0, _, l => l
  | fuel + 1, prevW, l =>
    match l with
    | [] => []
    | c :: cs =>
      match stripWordCI word (c :: cs) with
      | some rest =>
        let leftOk := wordBoundary prevW (isWordChar c)
        let rightOk := wordBoundary lastW
          (match rest.head? with
           | some d => isWordChar d
           | none => false)
        if leftOk && rightOk then delWordAux word lastW fuel lastW rest
        else c :: delWordAux word lastW fuel (isWordChar c) cs
      | none => c :: delWordAux word lastW fuel (isWordChar c) cs

/-- Remove every `\b word \b` match (case-insensitively) from `text`.
An empty word is returned unchanged (the source never produces one:
delete words come from `str.split()`). -/
def delWordBoundary (word text : List Char) : List Char :=
  match word.getLast? with
  | none => text
  | some w => delWordAux word (isWordChar w) (text.length + 1) false text

/-- Python `str.strip()` (default whitespace). -/
def pyStripWS (l : List Char) : List Char :=
  ((l.dropWhile pyWS).reverse.dropWhile pyWS).reverse

/-- Python `str.replace(pat, rep)`: replace all leftmost non-overlapping
occurrences; an empty pattern inserts `rep` at every position. -/
def pyReplaceAux (pat rep : List Char) : Nat → List Char → List Char
  | _, [] => if pat.isEmpty then rep else []
  | 0, l => l
  | fuel + 1, c :: cs =>
    if pat.isEmpty then rep ++ c :: pyReplaceAux pat rep fuel cs
    else if listStartsWith (c :: cs) pat then
      rep ++ pyReplaceAux pat rep fuel (cs.drop (pat.length - 1))
    else c :: pyReplaceAux pat rep fuel cs

/-- Python `str.replace(pat, rep)`. -/
def pyReplace (pat rep l : List Char) : List Char := pyReplaceAux pat rep l.length l

/-- `re.sub(r'\s+', ' ', .)`: collapse every whitespace run to one space.
The flag records whether the previous character was part of a run. -/
def collapseWSAux : Bool → List Char → List Char
  | _, [] => []
  | inRun, c :: cs =>
    if pyWS c then (if inRun then [] else [' ']) ++ collapseWSAux true cs
    else c :: collapseWSAux false cs

/-- `re.sub(r'\s+', ' ', .)`. -/
def collapseWS (l : List Char) : List Char := collapseWSAux false l

/-- One character of `re.sub(r'[<>:"/\\|?*]', '_', .)` (settings.py variant:
no apostrophe in the class). -/
def subCharSettings (c : Char) : Char := if c ∈ claimForbidden then '_' else c

/-- Split `file` into base name and extension following settings.py:
the part after the last dot is an extension when it is alphabetic and at most
9 characters long; video extensions are forced to `mp4`; a weird or missing
extension keeps the whole string as the name and defaults to `mp4`. -/
def splitNameExt (file : List Char) : List Char × List Char :=
  match rfindDot file with
  | some i =>
    if i ≠ 0 then
      let ggn_ext := file.drop (i + 1)
      if ggn_ext.all isAlphaChar && !ggn_ext.isEmpty && ggn_ext.length ≤ 9 then
        if VIDEO_EXTENSIONS.contains (String.mk (ggn_ext.map toLowerChar)) then
          (file.take i, "mp4".toList)
        else (file.take i, ggn_ext)
      else (file, "mp4".toList)
    else (file, "mp4".toList)
  | none => (file, "mp4".toList)

/-- The name computation of `rename_file`.  `delete_words`, `replacements`
and `custom_rename_tag` are the stored user settings; `fallback` stands for
`generate_random_name()`. -/
def rename_file (file : String) (delete_words : List String)
    (replacements : List (String × String)) (custom_rename_tag : String)
    (fallback : String) : String :=
  let (original_file_name, file_extension) := splitNameExt file.toList
  let processed := delete_words.foldl
    (fun acc w => pyStripWS (delWordBoundary w.toList acc)) original_file_name
  let processed := replacements.foldl
    (fun acc wr => pyReplace wr.1.toList wr.2.toList acc) processed
  let processed := pyStripWS (collapseWS processed)
  let processed := if processed.isEmpty then fallback.toList else processed
  let new_file_name :=
    if custom_rename_tag.isEmpty then processed ++ '.' :: file_extension
    else processed ++ ' ' :: custom_rename_tag.toList ++ '.' :: file_extension
  String.mk (new_file_name.map subCharSettings)

/-! ## Active-job registry  (plugins/batch.py lines 79-119)

`ACTIVE_USERS` is a dict keyed by `str(user_id)`; since `str` is injective on
user ids the registry is modelled as a function `Nat → Option BatchInfo`.
`save_active_users_to_file` only mirrors the dict to disk and is dropped. -/

/-- The per-user batch record stored in `ACTIVE_USERS`. -/
structure BatchInfo where
  total : Nat
  current : Nat
  success : Nat
  cancel_requested : Bool
  progress_message_id : Nat
deriving DecidableEq, Repr

/-- The registry type: at most one record per user id by construction. -/
def Registry : Type := Nat → Option BatchInfo

/-- `is_user_active`. -/
def is_user_active (reg : Registry) (uid : Nat) : Bool := (reg uid).isSome

/-- `add_active_batch`: store (overwrite) the record for `uid`. -/
def add_active_batch (reg : Registry) (uid : Nat) (info : BatchInfo) : Registry :=
  fun u => if u = uid then some info else reg u

/-- `request_batch_cancel`: set the cancellation flag when a record exists;
returns the updated registry and whether the request was accepted. -/
def request_batch_cancel (reg : Registry) (uid : Nat) : Registry × Bool :=
  match reg uid with
  | some info =>
    (fun u => if u = uid then some { info with cancel_requested := true } else reg u, true)
  | none => (reg, false)

/-- `should_cancel`. -/
def should_cancel (reg : Registry) (uid : Nat) : Bool :=
  match reg uid with
  | some info => info.cancel_requested
  | none => false

/-- `remove_active_batch`. -/
def remove_active_batch (reg : Registry) (uid : Nat) : Registry :=
  fun u => if u = uid then none else reg u

/-! ## Command state `Z` and the `/batch` / `/single` entry point
(plugins/batch.py lines 662-687) -/

/-- One entry of the per-user command state `Z`. -/
structure ZEntry where
  step : String
  cid : Option String := none
  sid : Option Nat := none
  lt : Option String := none
  num : Option Nat := none
deriving DecidableEq, Repr

/-- The `Z` dict. -/
def ZState : Type := Nat → Option ZEntry

/-- Outcome of `process_cmd`. -/
inductive CmdOutcome
  | noFreeService
  | forceSub
  | activeTask
  | noBot
  | promptLink
deriving DecidableEq, Repr

/-- `process_cmd` for `/batch` (`isBatch = true`) and `/single`.
`freemiumLimit` is the config constant `FREEMIUM_LIMIT`; `isPremium` the
`is_premium_user` lookup; `subBlock` whether the force-subscribe check
returned 1; `hasUBot` whether `get_ubot` produced a client.  Replies are
summarised by the outcome; the registry is never written. -/
def process_cmd (reg : Registry) (z : ZState) (uid : Nat) (isBatch : Bool)
    (freemiumLimit : Nat) (isPremium : Bool) (subBlock : Bool) (hasUBot : Bool) :
    CmdOutcome × Registry × ZState :=
  if freemiumLimit = 0 ∧ isPremium = false then (CmdOutcome.noFreeService, reg, z)
  else if subBlock then (CmdOutcome.forceSub, reg, z)
  else if is_user_active reg uid then (CmdOutcome.activeTask, reg, z)
  else if hasUBot = false then (CmdOutcome.noBot, reg, z)
  else
    (CmdOutcome.promptLink, reg,
      fun u => if u = uid then some { step := if isBatch then "start" else "start_single" } else z u)

/-! ## The count step of `text_handler`  (plugins/batch.py lines 797-844)

The handler runs with `Z[uid].step == 'count'`.  It validates the number,
moves the state to `'process'`, checks the clients and the double-check on
the registry, and registers the batch record.  The loop that follows is
modelled separately below. -/

/-- Outcome of the count step. -/
inductive CountOutcome
  | notNumeric
  | nonPositive
  | overLimit
  | noClients
  | alreadyActive
  | started
deriving DecidableEq, Repr

/-- Result of the count step. -/
structure CountResult where
  outcome : CountOutcome
  reg : Registry
  z : ZState

/-- The `'count'` branch of `text_handler` up to and including
`add_active_batch`.  `premiumLimit` / `freemiumLimit` are the config
constants; `hasUClient` / `hasUBot` whether `get_uclient` / `get_ubot`
succeeded; `pmid` the id of the freshly sent batch-progress message. -/
def text_handler_count (reg : Registry) (z : ZState) (uid : Nat) (text : String)
    (premiumLimit freemiumLimit : Nat) (isPremium : Bool)
    (hasUClient hasUBot : Bool) (pmid : Nat) : CountResult :=
  if pyIsDigit text = false then ⟨CountOutcome.notNumeric, reg, z⟩
  else
    let count := pyToNat text
    let max_limit := if isPremium then premiumLimit else freemiumLimit
    if count = 0 then ⟨CountOutcome.nonPositive, reg, z⟩
    else if max_limit < count then ⟨CountOutcome.overLimit, reg, z⟩
    else
      let z1 : ZState := fun u =>
        if u = uid then (z uid).map (fun e => { e with step := "process", num := some count })
        else z u
      if hasUClient = false ∧ hasUBot = false then
        ⟨CountOutcome.noClients, reg, fun u => if u = uid then none else z1 u⟩
      else if is_user_active reg uid then
        ⟨CountOutcome.alreadyActive, reg, fun u => if u = uid then none else z1 u⟩
      else
        ⟨CountOutcome.started,
          add_active_batch reg uid
            { total := count, current := 0, success := 0, cancel_requested := false,
              progress_message_id := pmid },
          z1⟩

/-! ## The batch loop of `text_handler`  (plugins/batch.py lines 846-896)

The loop `for j in range(total_num_messages)` checks `should_cancel` at the
top of each iteration, persists `(j, success_count)` via
`update_batch_progress`, fetches and processes message `start_id + j`, and
handles `FloodWait` / other exceptions per item.  The environment is given
by two oracles: `cancel j` is the value `should_cancel(uid)` reads at the
top of iteration `j` (the flag is set by the concurrent `/cancel` handler via
`request_batch_cancel` and never cleared during a run), and `item j`
summarises what fetching and processing message `start_id + j` did. -/

/-- Per-iteration outcome of the loop body. -/
inductive ItemStep
  | fetchFail
  | procResult (ok : Bool)
  | floodWait (w : Nat)
  | err
deriving DecidableEq, Repr

/-- Observable trace of one batch run: the `(current, success)` pairs written
by `add_active_batch` / `update_batch_progress`, the message ids handed to
`get_msg`, the cancellation report `(j, success)` sent when the top-of-loop
check fires, the `(j, wait)` FloodWait reports, and the FloodWait sleeps. -/
structure RunState where
  success : Nat
  snapshots : List (Nat × Nat)
  attempts : List Nat
  cancelReport : Option (Nat × Nat)
  editsFW : List (Nat × Nat)
  sleeps : List Nat
deriving DecidableEq, Repr

/-- One non-cancelled iteration `j` of the loop body. -/
def batch_iter (start : Nat) (item : Nat → ItemStep) (j : Nat) (st : RunState) : RunState :=
  let st := { st with snapshots := st.snapshots ++ [(j, st.success)],
                      attempts := st.attempts ++ [start + j] }
  match item j with
  | ItemStep.fetchFail => st
  | ItemStep.procResult ok => { st with success := st.success + if ok then 1 else 0 }
  | ItemStep.floodWait w => { st with editsFW := st.editsFW ++ [(j, w)],
                                      sleeps := st.sleeps ++ [w] }
  | ItemStep.err => st

/-- The loop from iteration `j` with `fuel` iterations left
(`j + fuel = total` throughout). -/
def batch_go (start : Nat) (cancel : Nat → Bool) (item : Nat → ItemStep) :
    Nat → Nat → RunState → RunState
  | 0, _, st => st
  | fuel + 1, j, st =>
    if cancel j then { st with cancelReport := some (j, st.success) }
    else batch_go start cancel item fuel (j + 1) (batch_iter start item j st)

/-- The whole batch loop.  The initial snapshot `(0, 0)` is the record
written by `add_active_batch`. -/
def text_handler_batch_loop (total start : Nat) (cancel : Nat → Bool)
    (item : Nat → ItemStep) : RunState :=
  batch_go start cancel item total 0
    { success := 0, snapshots := [(0, 0)], attempts := [], cancelReport := none,
      editsFW := [], sleeps := [] }

/-- Number of iterations the loop executes before the cancellation check
fires, capped at `fuel`. -/
def stopLen (cancel : Nat → Bool) : Nat → Nat → Nat
  | 0, _ => 0
  | fuel + 1, j => if cancel j then 0 else stopLen cancel fuel (j + 1) + 1

/-! ## The private branch of `get_msg`  (plugins/batch.py lines 171-207)

```python
else: # 'private' link_type
    if not user_client:
        return None
    try:
        chat_id_int = int(str(channel_id_or_username).replace('-100', ''))
        resolved_chat_id = channel_id_int if str(channel_id_int) == str(channel_id_or_username) else int(f'-100{chat_id_int}')
        msg = await user_client.get_messages(resolved_chat_id, message_id)
        if not msg or getattr(msg, "empty", False):
            await upd_dlg(user_client)
            msg = await user_client.get_messages(resolved_chat_id, message_id)
        return msg
    except UserNotParticipant: ...
    except PeerIdInvalid: ...
    except Exception as e:
        return None
```

The expression on the `resolved_chat_id` line reads the name
`channel_id_int`, which is bound nowhere in the function (the names in scope
with integer values are `message_id` and `chat_id_int`): Python raises
`NameError` there.  Name resolution is embedded explicitly through an
environment of bound locals so that this is visible in the model; all other
exceptions keep their usual meaning.  The fetch oracle
`fetch : Int → Nat → Option Nat` stands for `user_client.get_messages`,
returning `none` for a missing or empty message; the call log it produces is
returned alongside the result. -/

/-- Python exception values reachable in this fragment. -/
inductive PyExc
  | nameError (n : String)
  | valueError
deriving DecidableEq, Repr

/-- Resolve a Python name against the integer-valued locals in scope. -/
def lookupName (env : List (String × Int)) (n : String) : Except PyExc Int :=
  match env.find? (fun p => p.1 == n) with
  | some p => Except.ok p.2
  | none => Except.error (PyExc.nameError n)

/-- `str(x).replace('-100', '')`: remove every occurrence of `-100`. -/
def replace_minus100 : List Char → List Char
  | '-' :: '1' :: '0' :: '0' :: rest => replace_minus100 rest
  | c :: rest => c :: replace_minus100 rest
  | [] => []

/-- Python `int(s)`: optional sign followed by digits (surrounding
whitespace stripped); anything else raises `ValueError`. -/
def pyIntOfString (l : List Char) : Except PyExc Int :=
  let t := (l.dropWhile pyWS).reverse.dropWhile pyWS |>.reverse
  match t with
  | '-' :: ds =>
    if !ds.isEmpty && ds.all digitChar then Except.ok (-(digitsToNat ds : Int))
    else Except.error PyExc.valueError
  | '+' :: ds =>
    if !ds.isEmpty && ds.all digitChar then Except.ok (digitsToNat ds : Int)
    else Except.error PyExc.valueError
  | ds =>
    if !ds.isEmpty && ds.all digitChar then Except.ok (digitsToNat ds : Int)
    else Except.error PyExc.valueError

/-- The direct fetch with one dialog-refresh retry on an empty result. -/
def fetch_with_retry (resolved_chat_id : Int) (message_id : Nat)
    (fetch : Int → Nat → Option Nat) : Option Nat × List (Int × Nat) :=
  match fetch resolved_chat_id message_id with
  | some m => (some m, [(resolved_chat_id, message_id)])
  | none =>
    (fetch resolved_chat_id message_id,
      [(resolved_chat_id, message_id), (resolved_chat_id, message_id)])

/-- The `try` body of the private branch.  Returns the outcome (or the
exception) together with the `get_messages` call log. -/
def get_msg_private_try (channel_id_or_username : String) (message_id : Nat)
    (fetch : Int → Nat → Option Nat) :
    Except PyExc (Option Nat) × List (Int × Nat) :=
  match pyIntOfString (replace_minus100 channel_id_or_username.toList) with
  | Except.error e => (Except.error e, [])
  | Except.ok chat_id_int =>
    match lookupName [("message_id", (message_id : Int)), ("chat_id_int", chat_id_int)]
        "channel_id_int" with
    | Except.error e => (Except.error e, [])
    | Except.ok channel_id_int =>
      if toString channel_id_int == channel_id_or_username then
        let (m, calls) := fetch_with_retry channel_id_int message_id fetch
        (Except.ok m, calls)
      else
        match pyIntOfString (("-100" ++ toString chat_id_int).toList) with
        | Except.error e => (Except.error e, [])
        | Except.ok resolved_chat_id =>
          let (m, calls) := fetch_with_retry resolved_chat_id message_id fetch
          (Except.ok m, calls)

/-- The private branch of `get_msg`: no user client fails immediately;
any exception from the body is caught (`NameError` falls to the blanket
`except Exception`) and collapses to `None`. -/
def get_msg_private (user_client : Bool) (channel_id_or_username : String)
    (message_id : Nat) (fetch : Int → Nat → Option Nat) :
    Option Nat × List (Int × Nat) :=
  if user_client = false then (none, [])
  else
    match get_msg_private_try channel_id_or_username message_id fetch with
    | (Except.ok m, calls) => (m, calls)
    | (Except.error _, calls) => (none, calls)

/-! ## Upload-failure cleanup of `process_msg`  (plugins/batch.py lines 621-643)
and `thumbnail`  (utils/func.py lines 452-455)

```python
def thumbnail(sender):
    thumb_path = f'./data/thumbnails/{sender}.jpg'
    return thumb_path if os.path.exists(thumb_path) else None
```

The three `except` branches of the normal upload path share the cleanup

```python
await bot_client.edit_message_text(uid, progress_message.id, ...)
if os.path.exists(final_file_path): os.remove(final_file_path)
if thumb_path and os.path.exists(thumb_path) and thumb_path != f'{uid}.jpg': os.remove(thumb_path)
return 'Failed: ...'
```

The filesystem is a list of existing paths. -/

/-- `thumbnail` from utils/func.py against a filesystem `fs`. -/
def thumbnail (sender : Nat) (fs : List String) : Option String :=
  let thumb_path := "./data/thumbnails/" ++ toString sender ++ ".jpg"
  if fs.contains thumb_path then some thumb_path else none

/-- The kind of upload exception caught. -/
inductive UploadErrKind
  | floodWaitErr (w : Nat)
  | rpcError
  | otherErr
deriving DecidableEq, Repr

/-- `str(e)[:50]`. -/
def truncate50 (s : String) : String := String.mk (s.toList.take 50)

/-- Effects of one upload-failure branch. -/
structure FailEffects where
  progress_edit : String
  fs : List String
  result : String
deriving DecidableEq, Repr

/-- `os.remove(p)` guarded by `os.path.exists(p)`. -/
def removeIfExists (p : String) (fs : List String) : List String :=
  if fs.contains p then fs.erase p else fs

/-- The guarded thumbnail removal
`if thumb_path and os.path.exists(thumb_path) and thumb_path != f'{uid}.jpg'`. -/
def removeThumbGuarded (uid : Nat) (thumb_path : Option String) (fs : List String) :
    List String :=
  match thumb_path with
  | none => fs
  | some tp => if fs.contains tp && tp != (toString uid ++ ".jpg") then fs.erase tp else fs

/-- The shared cleanup of the three upload `except` branches of the normal
path of `process_msg`. -/
def process_msg_upload_failure (uid : Nat) (kind : UploadErrKind) (errText : String)
    (final_file_path : String) (thumb_path : Option String) (fs : List String) :
    FailEffects :=
  let edit :=
    match kind with
    | UploadErrKind.floodWaitErr w =>
      "Upload failed (FloodWait): " ++ toString w ++ "s. Try again later."
    | UploadErrKind.rpcError => "Upload failed (RPCError): " ++ truncate50 errText
    | UploadErrKind.otherErr => "Upload failed: " ++ truncate50 errText
  let fs1 := removeIfExists final_file_path fs
  let fs2 := removeThumbGuarded uid thumb_path fs1
  { progress_edit := edit, fs := fs2,
    result :=
      match kind with
      | UploadErrKind.floodWaitErr _ => "Failed: FloodWait during upload."
      | UploadErrKind.rpcError => "Failed: RPCError during upload."
      | UploadErrKind.otherErr => "Failed: Upload Error." }

/-! ## Helper lemmas about the batch loop -/

theorem batch_iter_attempts (start : Nat) (item : Nat → ItemStep) (j : Nat) (st : RunState) :
    (batch_iter start item j st).attempts = st.attempts ++ [start + j] := by
  cases h : item j <;> simp [batch_iter, h]

theorem batch_iter_snapshots (start : Nat) (item : Nat → ItemStep) (j : Nat) (st : RunState) :
    (batch_iter start item j st).snapshots = st.snapshots ++ [(j, st.success)] := by
  cases h : item j <;> simp [batch_iter, h]

theorem batch_iter_cancelReport (start : Nat) (item : Nat → ItemStep) (j : Nat) (st : RunState) :
    (batch_iter start item j st).cancelReport = st.cancelReport := by
  cases h : item j <;> simp [batch_iter, h]

theorem batch_iter_success_le (start : Nat) (item : Nat → ItemStep) (j : Nat) (st : RunState) :
    (batch_iter start item j st).success ≤ st.success + 1 := by
  cases h : item j <;> simp [batch_iter, h]
  case procResult ok => cases ok <;> simp

theorem batch_iter_editsFW_sub (start : Nat) (item : Nat → ItemStep) (j : Nat) (st : RunState) :
    ∀ x ∈ st.editsFW, x ∈ (batch_iter start item j st).editsFW := by
  intro x hx
  cases h : item j <;> simp [batch_iter, h, hx]

theorem batch_iter_sleeps_sub (start : Nat) (item : Nat → ItemStep) (j : Nat) (st : RunState) :
    ∀ x ∈ st.sleeps, x ∈ (batch_iter start item j st).sleeps := by
  intro x hx
  cases h : item j <;> simp [batch_iter, h, hx]

theorem batch_iter_fw (start : Nat) (item : Nat → ItemStep) (j w : Nat) (st : RunState)
    (h : item j = ItemStep.floodWait w) :
    (batch_iter start item j st).editsFW = st.editsFW ++ [(j, w)] ∧
      (batch_iter start item j st).sleeps = st.sleeps ++ [w] := by
  simp [batch_iter, h]

theorem batch_go_attempts (start : Nat) (cancel : Nat → Bool) (item : Nat → ItemStep) :
    ∀ fuel j st, (batch_go start cancel item fuel j st).attempts
      = st.attempts ++ (List.range (stopLen cancel fuel j)).map (fun i => start + j + i) := by
  intro fuel
  induction fuel with
  | zero => intro j st; simp [batch_go, stopLen]
  | succ fuel ih =>
    intro j st
    by_cases hc : cancel j
    · simp [batch_go, stopLen, hc]
    · rw [show batch_go start cancel item (fuel + 1) j st
          = batch_go start cancel item fuel (j + 1) (batch_iter start item j st) by
            simp [batch_go, hc]]
      rw [ih (j + 1) (batch_iter start item j st), batch_iter_attempts]
      rw [show stopLen cancel (fuel + 1) j = stopLen cancel fuel (j + 1) + 1 by
            simp [stopLen, hc]]
      rw [List.range_succ_eq_map, List.map_cons, List.map_map]
      have hfun : ((fun i => start + j + i) ∘ Nat.succ) = (fun i => start + (j + 1) + i) := by
        funext i; simp [Function.comp]; omega
      rw [hfun]
      simp

theorem batch_go_report (start : Nat) (cancel : Nat → Bool) (item : Nat → ItemStep) :
    ∀ fuel j st k, (∀ i, i < k → cancel (j + i) = false) → cancel (j + k) = true →
      k < fuel →
      ((batch_go start cancel item fuel j st).cancelReport).map Prod.fst = some (j + k) := by
  intro fuel
  induction fuel with
  | zero => intro j st k _ _ hk; omega
  | succ fuel ih =>
    intro j st k hlow hk hkf
    cases k with
    | zero =>
      have hc : cancel j = true := by simpa using hk
      simp [batch_go, hc]
    | succ k =>
      have hc : cancel j = false := by simpa using hlow 0 (by omega)
      rw [show batch_go start cancel item (fuel + 1) j st
          = batch_go start cancel item fuel (j + 1) (batch_iter start item j st) by
            simp [batch_go, hc]]
      have h1 : ∀ i, i < k → cancel (j + 1 + i) = false := by
        intro i hi
        have := hlow (i + 1) (by omega)
        simpa [show j + (i + 1) = j + 1 + i by omega] using this
      have h2 : cancel (j + 1 + k) = true := by
        simpa [show j + (k + 1) = j + 1 + k by omega] using hk
      have := ih (j + 1) (batch_iter start item j st) k h1 h2 (by omega)
      simpa [show j + 1 + k = j + (k + 1) by omega] using this

theorem stopLen_of_first (cancel : Nat → Bool) :
    ∀ fuel j k, (∀ i, i < k → cancel (j + i) = false) → cancel (j + k) = true →
      k < fuel → stopLen cancel fuel j = k := by
  intro fuel
  induction fuel with
  | zero => intro j k _ _ hk; omega
  | succ fuel ih =>
    intro j k hlow hk hkf
    cases k with
    | zero =>
      have hc : cancel j = true := by simpa using hk
      simp [stopLen, hc]
    | succ k =>
      have hc : cancel j = false := by simpa using hlow 0 (by omega)
      have h1 : ∀ i, i < k → cancel (j + 1 + i) = false := by
        intro i hi
        have := hlow (i + 1) (by omega)
        simpa [show j + (i + 1) = j + 1 + i by omega] using this
      have h2 : cancel (j + 1 + k) = true := by
        simpa [show j + (k + 1) = j + 1 + k by omega] using hk
      have := ih (j + 1) k h1 h2 (by omega)
      simp [stopLen, hc, this]

theorem lt_stopLen (cancel : Nat → Bool) :
    ∀ fuel j k, (∀ i, i ≤ k → cancel (j + i) = false) → k < fuel →
      k < stopLen cancel fuel j := by
  intro fuel
  induction fuel with
  | zero => intro j k _ hk; omega
  | succ fuel ih =>
    intro j k hlow hkf
    have hc : cancel j = false := by simpa using hlow 0 (by omega)
    cases k with
    | zero => simp [stopLen, hc]
    | succ k =>
      have h1 : ∀ i, i ≤ k → cancel (j + 1 + i) = false := by
        intro i hi
        have := hlow (i + 1) (by omega)
        simpa [show j + (i + 1) = j + 1 + i by omega] using this
      have := ih (j + 1) k h1 (by omega)
      simp [stopLen, hc]
      omega

theorem batch_go_snapshots_inv (start : Nat) (cancel : Nat → Bool) (item : Nat → ItemStep)
    (total : Nat) :
    ∀ fuel j st, j + fuel = total → st.success ≤ j →
      (∀ p ∈ st.snapshots, p.2 ≤ p.1 ∧ p.1 ≤ total) →
      ∀ p ∈ (batch_go start cancel item fuel j st).snapshots, p.2 ≤ p.1 ∧ p.1 ≤ total := by
  intro fuel
  induction fuel with
  | zero => intro j st _ _ hsnap p hp; exact hsnap p (by simpa [batch_go] using hp)
  | succ fuel ih =>
    intro j st htot hsucc hsnap p hp
    by_cases hc : cancel j
    · exact hsnap p (by simpa [batch_go, hc] using hp)
    · rw [show batch_go start cancel item (fuel + 1) j st
          = batch_go start cancel item fuel (j + 1) (batch_iter start item j st) by
            simp [batch_go, hc]] at hp
      refine ih (j + 1) (batch_iter start item j st) (by omega) ?_ ?_ p hp
      · have := batch_iter_success_le start item j st
        omega
      · intro q hq
        rw [batch_iter_snapshots] at hq
        rcases List.mem_append.mp hq with h | h
        · exact hsnap q h
        · simp at h
          subst h
          exact ⟨hsucc, by omega⟩

theorem batch_go_editsFW_mono (start : Nat) (cancel : Nat → Bool) (item : Nat → ItemStep) :
    ∀ fuel j st x, x ∈ st.editsFW → x ∈ (batch_go start cancel item fuel j st).editsFW := by
  intro fuel
  induction fuel with
  | zero => intro j st x hx; simpa [batch_go] using hx
  | succ fuel ih =>
    intro j st x hx
    by_cases hc : cancel j
    · simpa [batch_go, hc] using hx
    · rw [show batch_go start cancel item (fuel + 1) j st
          = batch_go start cancel item fuel (j + 1) (batch_iter start item j st) by
            simp [batch_go, hc]]
      exact ih (j + 1) _ x (batch_iter_editsFW_sub start item j st x hx)

theorem batch_go_sleeps_mono (start : Nat) (cancel : Nat → Bool) (item : Nat → ItemStep) :
    ∀ fuel j st x, x ∈ st.sleeps → x ∈ (batch_go start cancel item fuel j st).sleeps := by
  intro fuel
  induction fuel with
  | zero => intro j st x hx; simpa [batch_go] using hx
  | succ fuel ih =>
    intro j st x hx
    by_cases hc : cancel j
    · simpa [batch_go, hc] using hx
    · rw [show batch_go start cancel item (fuel + 1) j st
          = batch_go start cancel item fuel (j + 1) (batch_iter start item j st) by
            simp [batch_go, hc]]
      exact ih (j + 1) _ x (batch_iter_sleeps_sub start item j st x hx)

theorem batch_go_fw_mem (start : Nat) (cancel : Nat → Bool) (item : Nat → ItemStep) :
    ∀ fuel j st k w, (∀ i, i ≤ k → cancel (j + i) = false) → k < fuel →
      item (j + k) = ItemStep.floodWait w →
      (j + k, w) ∈ (batch_go start cancel item fuel j st).editsFW ∧
        w ∈ (batch_go start cancel item fuel j st).sleeps := by
  intro fuel
  induction fuel with
  | zero => intro j st k w _ hk _; omega
  | succ fuel ih =>
    intro j st k w hlow hkf hitem
    have hc : cancel j = false := by simpa using hlow 0 (by omega)
    rw [show batch_go start cancel item (fuel + 1) j st
        = batch_go start cancel item fuel (j + 1) (batch_iter start item j st) by
          simp [batch_go, hc]]
    cases k with
    | zero =>
      have hfw := batch_iter_fw start item j w st (by simpa using hitem)
      constructor
      · refine batch_go_editsFW_mono start cancel item fuel (j + 1) _ _ ?_
        rw [hfw.1]; simp
      · refine batch_go_sleeps_mono start cancel item fuel (j + 1) _ _ ?_
        rw [hfw.2]; simp
    | succ k =>
      have h1 : ∀ i, i ≤ k → cancel (j + 1 + i) = false := by
        intro i hi
        have := hlow (i + 1) (by omega)
        simpa [show j + (i + 1) = j + 1 + i by omega] using this
      have h2 : item (j + 1 + k) = ItemStep.floodWait w := by
        simpa [show j + (k + 1) = j + 1 + k by omega] using hitem
      have := ih (j + 1) (batch_iter start item j st) k w h1 (by omega) h2
      simpa [show j + 1 + k = j + (k + 1) by omega] using this

/-! ## Helper lemmas about the sanitizer -/

theorem head?_dropWhile_false (p : Char → Bool) (l : List Char) :
    ∀ c, (l.dropWhile p).head? = some c → p c = false := by
  intro c hc
  have h := List.head?_dropWhile_not p l
  rw [hc] at h
  exact h

theorem getLast?_dropWhile (p : Char → Bool) :
    ∀ l : List Char, l.dropWhile p = [] ∨ (l.dropWhile p).getLast? = l.getLast? := by
  intro l
  induction l with
  | nil => exact Or.inl rfl
  | cons a as ih =>
    by_cases h : p a
    · rw [List.dropWhile_cons_of_pos h]
      by_cases hd : as.dropWhile p = []
      · exact Or.inl hd
      · right
        rcases ih with h2 | h2
        · exact absurd h2 hd
        · rw [h2]
          cases as with
          | nil => exact absurd rfl hd
          | cons b bs => rw [List.getLast?_cons_cons]
    · rw [List.dropWhile_cons_of_neg h]
      exact Or.inr rfl

theorem subCharBatch_not_forbidden (c : Char) : subCharBatch c ∉ claimForbidden := by
  unfold subCharBatch
  by_cases h : c ∈ batchForbidden
  · rw [if_pos h]; decide
  · rw [if_neg h]
    intro hc
    exact h (List.mem_append_left _ hc)

theorem stripSpaceDot_subset (l : List Char) : ∀ c ∈ stripSpaceDot l, c ∈ l := by
  intro c hc
  unfold stripSpaceDot at hc
  rw [List.mem_reverse] at hc
  have h1 := (List.dropWhile_sublist pBadStrip).subset hc
  rw [List.mem_reverse] at h1
  exact (List.dropWhile_sublist pBadStrip).subset h1

theorem head?_stripSpaceDot (l : List Char) :
    ∀ c, (stripSpaceDot l).head? = some c → pBadStrip c = false := by
  intro c hc
  unfold stripSpaceDot at hc
  rw [List.head?_reverse] at hc
  rcases getLast?_dropWhile pBadStrip ((l.dropWhile pBadStrip).reverse) with h | h
  · rw [h] at hc; simp at hc
  · rw [h, List.getLast?_reverse] at hc
    exact head?_dropWhile_false pBadStrip l c hc

theorem getLast?_stripSpaceDot (l : List Char) :
    ∀ c, (stripSpaceDot l).getLast? = some c → pBadStrip c = false := by
  intro c hc
  unfold stripSpaceDot at hc
  rw [List.getLast?_reverse] at hc
  exact head?_dropWhile_false pBadStrip _ c hc

theorem head?_take_pos {α : Type _} {n : Nat} (hn : 0 < n) (l : List α) :
    (l.take n).head? = l.head? := by
  cases l with
  | nil => simp
  | cons a as =>
    cases n with
    | zero => omega
    | succ n => simp

/-! ## Claim theorems -/

/-- Claim C7: link resolution is a pure function with
`E "https://t.me/c/1234567890/55" = ("-1001234567890", 55, "private")`,
`E "https://t.me/somechannel/42" = ("somechannel", 42, "public")`, and any
string matching neither regex (such as `"not a link"`) yields the
Invalid-Link signal `(none, none, none)`: no chat reference and no
message id. -/
theorem E_resolve_spec :
    E "https://t.me/c/1234567890/55" = (some "-1001234567890", some 55, some "private") ∧
    E "https://t.me/somechannel/42" = (some "somechannel", some 42, some "public") ∧
    E "not a link" = (none, none, none) ∧
    ∀ s : String, matchPrivateLink s.toList = none → matchPublicLink s.toList = none →
      E s = (none, none, none) := by
  refine ⟨by rfl, by rfl, by rfl, ?_⟩
  intro s h1 h2
  unfold E
  rw [h1, h2]

/-- Witness for C7: the invalid-link case applied at the concrete string. -/
theorem E_resolve_spec_witness : E "not a link" = (none, none, none) :=
  E_resolve_spec.2.2.2 "not a link" (by rfl) (by rfl)

/-- Claim C9: with delete list `["draft"]`, replacements `{"foo": "bar"}` and
rename tag `"[tag]"`, the filename `"my draft foo.mkv"` becomes
`"my bar [tag].mp4"`: the token `draft` is gone, `foo` became `bar`, the
name ends with `"[tag].mp4"` (the mkv container is forced to mp4), and no
forbidden character occurs. -/
theorem rename_file_spec :
    rename_file "my draft foo.mkv" ["draft"] [("foo", "bar")] "[tag]" "randomxy"
        = "my bar [tag].mp4" ∧
    containsStr (rename_file "my draft foo.mkv" ["draft"] [("foo", "bar")] "[tag]" "randomxy")
        "draft" = false ∧
    containsStr (rename_file "my draft foo.mkv" ["draft"] [("foo", "bar")] "[tag]" "randomxy")
        "bar" = true ∧
    containsStr (rename_file "my draft foo.mkv" ["draft"] [("foo", "bar")] "[tag]" "randomxy")
        "foo" = false ∧
    endsWithStr (rename_file "my draft foo.mkv" ["draft"] [("foo", "bar")] "[tag]" "randomxy")
        "[tag].mp4" = true ∧
    (rename_file "my draft foo.mkv" ["draft"] [("foo", "bar")] "[tag]" "randomxy").toList.all
        (fun c => !(claimForbidden.contains c)) = true := by
  refine ⟨by rfl, by rfl, by rfl, by rfl, by rfl, by rfl⟩

/-- Claim C1 (code bug): the private branch of `get_msg` always returns
`None` and never reaches `get_messages`: the `resolved_chat_id` expression
reads the unbound name `channel_id_int` (the local is `chat_id_int`), so
Python raises `NameError`, which the blanket `except Exception` turns into
`None`.  The normalization / direct-fetch / retry behaviour the claim
describes is dead code. -/
theorem get_msg_private_always_fails (ch : String) (mid : Nat)
    (fetch : Int → Nat → Option Nat) :
    get_msg_private true ch mid fetch = (none, []) := by
  unfold get_msg_private get_msg_private_try
  cases h : pyIntOfString (replace_minus100 ch.toList) with
  | error e => simp [h]
  | ok c =>
    have hlk : lookupName [("message_id", (mid : Int)), ("chat_id_int", c)] "channel_id_int"
        = Except.error (PyExc.nameError "channel_id_int") := rfl
    simp [h, hlk]

/-- Claim C5 (code bug): on an upload failure the progress message is edited
with a truncated error and the downloaded file is removed, but the
user-provided persistent thumbnail (the path `thumbnail` returns,
`./data/thumbnails/5.jpg`) is deleted as well: the cleanup guard compares
against `'5.jpg'`, which never equals the path `thumbnail` yields. -/
theorem upload_failure_deletes_persistent_thumbnail :
    thumbnail 5 ["file.mp4", "./data/thumbnails/5.jpg"]
        = some "./data/thumbnails/5.jpg" ∧
    (process_msg_upload_failure 5 UploadErrKind.rpcError "boom" "file.mp4"
        (thumbnail 5 ["file.mp4", "./data/thumbnails/5.jpg"])
        ["file.mp4", "./data/thumbnails/5.jpg"]).fs = [] ∧
    (process_msg_upload_failure 5 UploadErrKind.rpcError "boom" "file.mp4"
        (thumbnail 5 ["file.mp4", "./data/thumbnails/5.jpg"])
        ["file.mp4", "./data/thumbnails/5.jpg"]).progress_edit
        = "Upload failed (RPCError): boom" ∧
    (process_msg_upload_failure 5 UploadErrKind.rpcError "boom" "file.mp4"
        (thumbnail 5 ["file.mp4", "./data/thumbnails/5.jpg"])
        ["file.mp4", "./data/thumbnails/5.jpg"]).result
        = "Failed: RPCError during upload." := by
  refine ⟨by rfl, by rfl, by rfl, by rfl⟩

/-- Claim C10 (corrected): the sanitizer output has length at most 255,
contains no forbidden character, and never begins with a space or a dot;
it also never ends with a space or a dot provided the stripped string is
at most 255 characters, i.e. when the final truncation does not cut the
string (a truncated output can end in an interior space or dot). -/
theorem sanitize_props (s : String) :
    (sanitize s).length ≤ 255 ∧
    (∀ c ∈ (sanitize s).toList, c ∉ claimForbidden) ∧
    beginsBad (sanitize s) = false ∧
    ((stripSpaceDot (s.toList.map subCharBatch)).length ≤ 255 →
      endsBad (sanitize s) = false) := by
  have htl : (sanitize s).toList = (stripSpaceDot (s.toList.map subCharBatch)).take 255 := rfl
  refine ⟨?_, ?_, ?_, ?_⟩
  · show ((stripSpaceDot (s.toList.map subCharBatch)).take 255).length ≤ 255
    rw [List.length_take]
    exact min_le_left _ _
  · intro c hc
    rw [htl] at hc
    have h1 := (List.take_sublist 255 _).subset hc
    have h2 := stripSpaceDot_subset _ c h1
    rcases List.mem_map.mp h2 with ⟨x, _, hx⟩
    rw [← hx]
    exact subCharBatch_not_forbidden x
  · unfold beginsBad
    rw [htl, head?_take_pos (by norm_num)]
    cases hh : (stripSpaceDot (s.toList.map subCharBatch)).head? with
    | none => rfl
    | some c => exact head?_stripSpaceDot _ c hh
  · intro hlen
    unfold endsBad
    rw [htl, List.take_of_length_le hlen]
    cases hh : (stripSpaceDot (s.toList.map subCharBatch)).getLast? with
    | none => rfl
    | some c => exact getLast?_stripSpaceDot _ c hh

/-- Witness for C10: the amended properties at a concrete short input. -/
theorem sanitize_props_witness :
    (stripSpaceDot (("ab<cd. ").toList.map subCharBatch)).length ≤ 255 ∧
    (sanitize "ab<cd. ").length ≤ 255 ∧
    beginsBad (sanitize "ab<cd. ") = false ∧
    endsBad (sanitize "ab<cd. ") = false :=
  ⟨by decide, (sanitize_props "ab<cd. ").1, (sanitize_props "ab<cd. ").2.2.1,
    (sanitize_props "ab<cd. ").2.2.2 (by decide)⟩

/-- Counterexample for C10 as stated: for the 256-character input `c10bad`
(254 `a`s, a space, then `b`) the sanitizer output ends with a space,
because `.strip(" .")` runs before the `[:255]` truncation. -/
theorem sanitize_truncation_counterexample :
    endsBad (sanitize c10bad) = true ∧ (sanitize c10bad).length = 255 := by
  refine ⟨by decide, by decide⟩

/-- Claim C2: at most one batch job per user.  `process_cmd` never writes
the registry and rejects a user with an active entry (once past the premium
and subscription gates) without touching the command state; the count step
of `text_handler` keeps the registry unchanged and never starts when the
user is active; and a job is registered only when no entry exists, leaving
every other user's entry untouched. -/
theorem one_active_job_per_user (reg : Registry) (z : ZState) (uid : Nat) (isBatch : Bool)
    (freemiumLimit premiumLimit : Nat) (isPremium subBlock hasUClient hasUBot : Bool)
    (text : String) (pmid : Nat) :
    ((process_cmd reg z uid isBatch freemiumLimit isPremium subBlock hasUBot).2.1 = reg) ∧
    (¬(freemiumLimit = 0 ∧ isPremium = false) → subBlock = false →
      is_user_active reg uid = true →
      (process_cmd reg z uid isBatch freemiumLimit isPremium subBlock hasUBot).1
          = CmdOutcome.activeTask ∧
      (process_cmd reg z uid isBatch freemiumLimit isPremium subBlock hasUBot).2.2 = z) ∧
    (is_user_active reg uid = true →
      (text_handler_count reg z uid text premiumLimit freemiumLimit isPremium
          hasUClient hasUBot pmid).outcome ≠ CountOutcome.started ∧
      (text_handler_count reg z uid text premiumLimit freemiumLimit isPremium
          hasUClient hasUBot pmid).reg = reg) ∧
    ((text_handler_count reg z uid text premiumLimit freemiumLimit isPremium
        hasUClient hasUBot pmid).outcome = CountOutcome.started →
      is_user_active reg uid = false ∧
      (text_handler_count reg z uid text premiumLimit freemiumLimit isPremium
          hasUClient hasUBot pmid).reg uid
        = some { total := pyToNat text, current := 0, success := 0,
                 cancel_requested := false, progress_message_id := pmid } ∧
      ∀ u, u ≠ uid →
        (text_handler_count reg z uid text premiumLimit freemiumLimit isPremium
            hasUClient hasUBot pmid).reg u = reg u) := by
  refine ⟨?_, ?_, ?_, ?_⟩
  · unfold process_cmd
    split_ifs <;> rfl
  · intro h1 h2 h3
    unfold process_cmd
    rw [if_neg h1, if_neg (by simp [h2]), if_pos h3]
    exact ⟨rfl, rfl⟩
  · intro h
    simp only [text_handler_count]
    split_ifs with h1 h2 h3 h4 h5 h6 h7 <;>
      exact ⟨fun hcon => CountOutcome.noConfusion hcon, rfl⟩
  · intro h
    simp only [text_handler_count] at h ⊢
    split_ifs at h ⊢ with h1 h2 h3 h4 h5 h6 h7 h8 <;>
      exact ⟨by simpa using ‹¬ is_user_active reg uid = true›,
        by simp [add_active_batch], fun u hu => by simp [add_active_batch, hu]⟩

/-- Witness for C2 at a concrete registry with user 7 active. -/
theorem one_active_job_per_user_witness :
    (process_cmd
        (fun u => if u = 7 then
          some { total := 3, current := 1, success := 1, cancel_requested := false,
                 progress_message_id := 42 } else none)
        (fun _ => none) 7 true 5 false false true).1 = CmdOutcome.activeTask ∧
    (text_handler_count
        (fun u => if u = 7 then
          some { total := 3, current := 1, success := 1, cancel_requested := false,
                 progress_message_id := 42 } else none)
        (fun _ => none) 7 "2" 100 5 false true true 9).outcome ≠ CountOutcome.started := by
  have h := one_active_job_per_user
    (fun u => if u = 7 then
      some { total := 3, current := 1, success := 1, cancel_requested := false,
             progress_message_id := 42 } else none)
    (fun _ => none) 7 true 5 100 false false true true "2" 9
  exact ⟨(h.2.1 (by simp) rfl rfl).1, (h.2.2.1 rfl).1⟩

/-- Claim C8: with plan ceiling `L` (premium or free), a numeric count
strictly above `L` is rejected as over-limit with the registry and the
awaiting-count state untouched; a numeric count equal to a positive `L`
(given a client and no active job) starts the batch and registers it;
non-numeric input changes nothing. -/
theorem count_limit_enforced (reg : Registry) (z : ZState) (uid : Nat) (text : String)
    (premiumLimit freemiumLimit : Nat) (isPremium hasUClient hasUBot : Bool) (pmid : Nat) :
    (pyIsDigit text = true →
      (if isPremium then premiumLimit else freemiumLimit) < pyToNat text →
      (text_handler_count reg z uid text premiumLimit freemiumLimit isPremium
          hasUClient hasUBot pmid).outcome = CountOutcome.overLimit ∧
      (text_handler_count reg z uid text premiumLimit freemiumLimit isPremium
          hasUClient hasUBot pmid).reg = reg ∧
      (text_handler_count reg z uid text premiumLimit freemiumLimit isPremium
          hasUClient hasUBot pmid).z = z) ∧
    (pyIsDigit text = true →
      pyToNat text = (if isPremium then premiumLimit else freemiumLimit) →
      0 < pyToNat text → (hasUClient = true ∨ hasUBot = true) →
      is_user_active reg uid = false →
      (text_handler_count reg z uid text premiumLimit freemiumLimit isPremium
          hasUClient hasUBot pmid).outcome = CountOutcome.started ∧
      (text_handler_count reg z uid text premiumLimit freemiumLimit isPremium
          hasUClient hasUBot pmid).reg uid
        = some { total := pyToNat text, current := 0, success := 0,
                 cancel_requested := false, progress_message_id := pmid }) ∧
    (pyIsDigit text = false →
      (text_handler_count reg z uid text premiumLimit freemiumLimit isPremium
          hasUClient hasUBot pmid).outcome = CountOutcome.notNumeric ∧
      (text_handler_count reg z uid text premiumLimit freemiumLimit isPremium
          hasUClient hasUBot pmid).reg = reg ∧
      (text_handler_count reg z uid text premiumLimit freemiumLimit isPremium
          hasUClient hasUBot pmid).z = z) := by
  refine ⟨?_, ?_, ?_⟩
  · intro hdig hover
    simp only [text_handler_count]
    rw [if_neg (by simp [hdig]), if_neg (by omega), if_pos hover]
    exact ⟨rfl, rfl, rfl⟩
  · intro hdig heq hpos hcli hact
    simp only [text_handler_count]
    rw [if_neg (by simp [hdig]), if_neg (by omega), if_neg (by omega),
      if_neg (by rcases hcli with h | h <;> simp [h]), if_neg (by simp [hact])]
    refine ⟨rfl, ?_⟩
    simp [add_active_batch]
  · intro hdig
    simp only [text_handler_count]
    rw [if_pos (by simp [hdig])]
    exact ⟨rfl, rfl, rfl⟩

/-- Witness for C8: free ceiling 5; count 6 is rejected, count 5 starts,
non-numeric input is rejected, always with user 7 inactive and awaiting
the count. -/
theorem count_limit_enforced_witness :
    (text_handler_count (fun _ => none)
        (fun u => if u = 7 then some { step := "count" } else none)
        7 "6" 100 5 false true true 9).outcome = CountOutcome.overLimit ∧
    (text_handler_count (fun _ => none)
        (fun u => if u = 7 then some { step := "count" } else none)
        7 "5" 100 5 false true true 9).outcome = CountOutcome.started ∧
    (text_handler_count (fun _ => none)
        (fun u => if u = 7 then some { step := "count" } else none)
        7 "abc" 100 5 false true true 9).outcome = CountOutcome.notNumeric := by
  have h6 := count_limit_enforced (fun _ => none)
    (fun u => if u = 7 then some { step := "count" } else none) 7 "6" 100 5 false true true 9
  have h5 := count_limit_enforced (fun _ => none)
    (fun u => if u = 7 then some { step := "count" } else none) 7 "5" 100 5 false true true 9
  have ha := count_limit_enforced (fun _ => none)
    (fun u => if u = 7 then some { step := "count" } else none) 7 "abc" 100 5 false true true 9
  exact ⟨(h6.1 (by decide) (by decide)).1,
    (h5.2.1 (by decide) (by decide) (by decide) (Or.inl rfl) rfl).1,
    (ha.2.2 (by decide)).1⟩

/-- Claim C3: a `/cancel` on an active job sets the flag that `should_cancel`
reads; the loop observes it at the top of iteration `j0` (the first
iteration at which the flag is set), attempts exactly the items of
iterations `0 .. j0-1` and none after, and the cancellation report carries
the processed count `j0`. -/
theorem batch_cancel_halts (total start j0 : Nat) (cancel : Nat → Bool)
    (item : Nat → ItemStep)
    (h0 : ∀ i, i < j0 → cancel i = false) (h1 : cancel j0 = true) (hlt : j0 < total) :
    ((text_handler_batch_loop total start cancel item).cancelReport).map Prod.fst
        = some j0 ∧
    (text_handler_batch_loop total start cancel item).attempts
        = (List.range j0).map (fun i => start + i) ∧
    ∀ reg : Registry, ∀ uid : Nat, is_user_active reg uid = true →
      should_cancel (request_batch_cancel reg uid).1 uid = true := by
  refine ⟨?_, ?_, ?_⟩
  · have h := batch_go_report start cancel item total 0
      { success := 0, snapshots := [(0, 0)], attempts := [], cancelReport := none,
        editsFW := [], sleeps := [] } j0
      (by intro i hi; simpa using h0 i hi) (by simpa using h1) hlt
    simpa [text_handler_batch_loop] using h
  · have hstop : stopLen cancel total 0 = j0 :=
      stopLen_of_first cancel total 0 j0
        (by intro i hi; simpa using h0 i hi) (by simpa using h1) hlt
    have h := batch_go_attempts start cancel item total 0
      { success := 0, snapshots := [(0, 0)], attempts := [], cancelReport := none,
        editsFW := [], sleeps := [] }
    rw [hstop] at h
    simpa [text_handler_batch_loop] using h
  · intro reg uid hact
    unfold is_user_active at hact
    unfold request_batch_cancel should_cancel
    cases hreg : reg uid with
    | none => rw [hreg] at hact; simp at hact
    | some info => simp [hreg]

/-- Witness for C3: three planned items, flag first observed at iteration 1. -/
theorem batch_cancel_halts_witness :
    ((text_handler_batch_loop 3 100 (fun i => decide (1 ≤ i))
        (fun _ => ItemStep.procResult true)).cancelReport).map Prod.fst = some 1 ∧
    (text_handler_batch_loop 3 100 (fun i => decide (1 ≤ i))
        (fun _ => ItemStep.procResult true)).attempts = [100] := by
  have h := batch_cancel_halts 3 100 1 (fun i => decide (1 ≤ i))
    (fun _ => ItemStep.procResult true)
    (by intro i hi; interval_cases i; rfl) (by rfl) (by omega)
  exact ⟨h.1, h.2.1.trans (by rfl)⟩

/-- Claim C4: every persisted `(current, success)` snapshot of a batch run,
from the `add_active_batch` record through all `update_batch_progress`
writes, satisfies `success ≤ current ≤ total`. -/
theorem batch_progress_invariant (total start : Nat) (cancel : Nat → Bool)
    (item : Nat → ItemStep) :
    ∀ p ∈ (text_handler_batch_loop total start cancel item).snapshots,
      p.2 ≤ p.1 ∧ p.1 ≤ total := by
  intro p hp
  refine batch_go_snapshots_inv start cancel item total total 0
    { success := 0, snapshots := [(0, 0)], attempts := [], cancelReport := none,
      editsFW := [], sleeps := [] } (by omega) (by simp) ?_ p hp
  intro q hq
  simp only [List.mem_singleton] at hq
  subst hq
  exact ⟨Nat.le_refl 0, Nat.zero_le total⟩

/-- Witness for C4: a concrete two-item run and one of its snapshots. -/
theorem batch_progress_invariant_witness :
    (1, 1) ∈ (text_handler_batch_loop 2 10 (fun _ => false)
        (fun _ => ItemStep.procResult true)).snapshots ∧
    (1 : Nat) ≤ 1 ∧ (1 : Nat) ≤ 2 := by
  have hmem : (1, 1) ∈ (text_handler_batch_loop 2 10 (fun _ => false)
      (fun _ => ItemStep.procResult true)).snapshots := by decide
  exact ⟨hmem,
    batch_progress_invariant 2 10 (fun _ => false) (fun _ => ItemStep.procResult true)
      (1, 1) hmem⟩

/-- Claim C6: a FloodWait at iteration `j` is reported in the progress
message together with the wait, the wait is slept, message `start + j` is
attempted exactly once (no retry), and the loop moves on to attempt
`start + (j+1)` when a next iteration exists. -/
theorem batch_floodwait_advances (total start j w : Nat) (cancel : Nat → Bool)
    (item : Nat → ItemStep)
    (hc : ∀ i, i ≤ j + 1 → cancel i = false) (hitem : item j = ItemStep.floodWait w)
    (hj : j < total) :
    (j, w) ∈ (text_handler_batch_loop total start cancel item).editsFW ∧
    w ∈ (text_handler_batch_loop total start cancel item).sleeps ∧
    (text_handler_batch_loop total start cancel item).attempts.count (start + j) = 1 ∧
    (j + 1 < total →
      (start + (j + 1)) ∈ (text_handler_batch_loop total start cancel item).attempts) := by
  have hfw := batch_go_fw_mem start cancel item total 0
    { success := 0, snapshots := [(0, 0)], attempts := [], cancelReport := none,
      editsFW := [], sleeps := [] } j w
    (by intro i hi; simpa using hc i (by omega)) hj (by simpa using hitem)
  have hatt := batch_go_attempts start cancel item total 0
    { success := 0, snapshots := [(0, 0)], attempts := [], cancelReport := none,
      editsFW := [], sleeps := [] }
  have hjlt : j < stopLen cancel total 0 :=
    lt_stopLen cancel total 0 j (by intro i hi; simpa using hc i (by omega)) hj
  have hattempts : (text_handler_batch_loop total start cancel item).attempts
      = (List.range (stopLen cancel total 0)).map (fun i => start + 0 + i) := by
    simpa [text_handler_batch_loop] using hatt
  have hinj : Function.Injective (fun i => start + 0 + i) := by
    intro a b hab
    simpa using hab
  have hnd : ((List.range (stopLen cancel total 0)).map (fun i => start + 0 + i)).Nodup :=
    (List.nodup_range _).map hinj
  have hmem : (start + j) ∈ (List.range (stopLen cancel total 0)).map
      (fun i => start + 0 + i) :=
    List.mem_map.mpr ⟨j, List.mem_range.mpr hjlt, by omega⟩
  refine ⟨by simpa [text_handler_batch_loop] using hfw.1,
    by simpa [text_handler_batch_loop] using hfw.2, ?_, ?_⟩
  · rw [hattempts]
    exact List.count_eq_one_of_mem hnd hmem
  · intro hj1
    have hjlt1 : j + 1 < stopLen cancel total 0 :=
      lt_stopLen cancel total 0 (j + 1) (by intro i hi; simpa using hc i hi) hj1
    rw [hattempts]
    exact List.mem_map.mpr ⟨j + 1, List.mem_range.mpr hjlt1, by omega⟩

/-- Witness for C6: two items, FloodWait of 5 on the first. -/
theorem batch_floodwait_advances_witness :
    (0, 5) ∈ (text_handler_batch_loop 2 10 (fun _ => false)
        (fun n => if n = 0 then ItemStep.floodWait 5 else ItemStep.procResult true)).editsFW ∧
    5 ∈ (text_handler_batch_loop 2 10 (fun _ => false)
        (fun n => if n = 0 then ItemStep.floodWait 5 else ItemStep.procResult true)).sleeps ∧
    (text_handler_batch_loop 2 10 (fun _ => false)
        (fun n => if n = 0 then ItemStep.floodWait 5 else ItemStep.procResult true)).attempts.count 10 = 1 ∧
    11 ∈ (text_handler_batch_loop 2 10 (fun _ => false)
        (fun n => if n = 0 then ItemStep.floodWait 5 else ItemStep.procResult true)).attempts := by
  have h := batch_floodwait_advances 2 10 0 5 (fun _ => false)
    (fun n => if n = 0 then ItemStep.floodWait 5 else ItemStep.procResult true)
    (by intro i hi; rfl) (by rfl) (by omega)
  exact ⟨h.1, h.2.1, h.2.2.1, h.2.2.2 (by omega)⟩
